import Mathlib

/-
  Verification of the conversational worker (src/index.ts): the /chat
  handler with its Durable Object memory protocol, and the /summarize
  start/status handlers fronting the workflow engine.

  The handlers are embedded as pure functions from an environment (the
  responses of the outbound collaborators: the memory actor, the LLM, and
  the workflow engine) to the list of outbound effects the handler issues
  and the HTTP-level result it returns.  An `await` of a collaborator call
  that rejects is modelled as an `Except.error` response: the handler has
  no try/catch anywhere, so the error propagates and the framework turns
  it into a 500 server error.
-/

namespace CfAssistant

/-- A JavaScript value, as the `/chat` handler may receive it in the
`prof` field of the memory snapshot (typed `unknown` in the source).
`jcomp` stands for a composite JSON value (object or array); it carries
its `JSON.stringify` rendering, which is all the handler ever uses.
Numbers are modelled as integers. -/
inductive JSVal where
  | jnull
  | jbool (b : Bool)
  | jnum (n : Int)
  | jstr (s : String)
  | jcomp (rendered : String)
deriving DecidableEq, Repr

/-- JavaScript truthiness of a value: `null`, `false`, `0` and the empty
string are falsy; composite values (objects, arrays) are always truthy. -/
def truthy : JSVal → Bool
  | .jnull => false
  | .jbool b => b
  | .jnum n => n != 0
  | .jstr s => s != ""
  | .jcomp _ => true

/-- Escape a character for a JSON string literal (quote and backslash). -/
def jsEscapeChar (c : Char) : String :=
  if c = '\\' then "\\\\" else if c = '"' then "\\\"" else String.singleton c

/-- Escape a string for inclusion in a JSON string literal. -/
def jsEscape (s : String) : String :=
  String.join (s.toList.map jsEscapeChar)

/-- Rendering of a value by `JSON.stringify`, as used on `mem.prof` in
the profile line of the prompt. -/
def jsonStringify : JSVal → String
  | .jnull => "null"
  | .jbool true => "true"
  | .jbool false => "false"
  | .jnum n => toString n
  | .jstr s => "\"" ++ jsEscape s ++ "\""
  | .jcomp rendered => rendered

/-- The memory snapshot the `/chat` handler parses from the
`https://do/get` response: `{ prof?: unknown; hist?: string[] }`.  Both
fields may be absent. -/
structure MemSnapshot where
  prof : Option JSVal
  hist : Option (List String)
deriving DecidableEq, Repr

/-- Embeds `const history = (mem.hist ?? []).join("\n")` (index.ts
line 72). -/
def historyText (mem : MemSnapshot) : String :=
  String.intercalate "\n" (mem.hist.getD [])

/-- Embeds `const profile = mem.prof ? \`User profile: ${JSON.stringify(mem.prof)}\n\` : ""`
(index.ts line 73): the profile line is gated on JavaScript truthiness of
`mem.prof`; an absent field is `undefined`, hence falsy. -/
def profileText (mem : MemSnapshot) : String :=
  match mem.prof with
  | some p => if truthy p then "User profile: " ++ jsonStringify p ++ "\n" else ""
  | none => ""

/-- Embeds `const prompt = \`${profile}Conversation so far:\n${history}\nUser: ${userMsg}\nAssistant:\``
(index.ts line 74). -/
def buildPrompt (mem : MemSnapshot) (userMsg : String) : String :=
  profileText mem ++ "Conversation so far:\n" ++ historyText mem ++
    "\nUser: " ++ userMsg ++ "\nAssistant:"

/-- The item appended to memory after inference (index.ts line 82):
`User: ${userMsg}\nAssistant: ${answer}`. -/
def turnItem (userMsg answer : String) : String :=
  "User: " ++ userMsg ++ "\nAssistant: " ++ answer

/-- An outbound effect of the `/chat` handler: the memory-actor `get`
fetch, the Workers AI call, and the memory-actor `append` fetch. -/
inductive Effect where
  | memGet (userId : String)
  | llmCall (prompt : String)
  | memAppend (userId : String) (item : String)
deriving DecidableEq, Repr

/-- The HTTP-level outcome of a `/chat` request: `c.json({ answer })`, or
the framework's 500 response when an un-caught awaited call rejects. -/
inductive ChatResult where
  | ok (answer : String)
  | serverError (status : Nat)
deriving DecidableEq, Repr

/-- The responses of the `/chat` handler's collaborators for one request:
the memory `get` (an `Except.error` models the awaited fetch rejecting,
e.g. on storage failure), the inference call, and the memory `append`. -/
structure ChatEnv where
  getResult : Except String MemSnapshot
  llm : String → Except String String
  appendResult : Except String Unit

/-- The `/chat` handler (index.ts lines 62 to 86): `get` from the memory
actor, build the prompt, call the LLM, `append` the new turn, return
`{ answer }`.  No step is wrapped in a try/catch, so a rejecting `await`
aborts the request with a 500 and skips every later step. -/
def chatHandler (env : ChatEnv) (userId userMsg : String) :
    List Effect × ChatResult :=
  match env.getResult with
  | .error _ => ([.memGet userId], .serverError 500)
  | .ok mem =>
    let prompt := buildPrompt mem userMsg
    match env.llm prompt with
    | .error _ => ([.memGet userId, .llmCall prompt], .serverError 500)
    | .ok answer =>
      match env.appendResult with
      | .error _ =>
        ([.memGet userId, .llmCall prompt,
          .memAppend userId (turnItem userMsg answer)], .serverError 500)
      | .ok _ =>
        ([.memGet userId, .llmCall prompt,
          .memAppend userId (turnItem userMsg answer)], .ok answer)

/-- The memory-append effects in a trace, with their user id and item. -/
def appendsIn (effs : List Effect) : List (String × String) :=
  effs.filterMap fun e =>
    match e with
    | .memAppend u i => some (u, i)
    | _ => none

/-- The inference calls in a trace, with the prompt each was given. -/
def llmCallsIn (effs : List Effect) : List String :=
  effs.filterMap fun e =>
    match e with
    | .llmCall p => some p
    | _ => none

/-- An outbound effect of the summarization handlers: `create` a
workflow instance, `get` an instance by id, and query an instance's
`status()`. -/
inductive WfEffect where
  | wfCreate (url : String)
  | wfGetInstance (id : String)
  | wfStatus (id : String)
deriving DecidableEq, Repr

/-- The workflow engine's behaviour for one request: the id of the
instance `create` returns, and the status snapshot reported for an id. -/
structure WfEnv where
  createdId : String
  statusOf : String → String

/-- Outcome of `POST /summarize`: `c.json({ id, status })`. -/
inductive StartResult where
  | startOk (id : String) (status : String)
deriving DecidableEq, Repr

/-- The `POST /summarize` handler (index.ts lines 89 to 94): creates a
workflow instance for the given url, queries its status, and returns
both.  The body's `url` is passed through with no validation. -/
def summarizeStart (env : WfEnv) (url : String) :
    List WfEffect × StartResult :=
  ([.wfCreate url, .wfStatus env.createdId],
   .startOk env.createdId (env.statusOf env.createdId))

/-- Outcome of `GET /summarize/status`: the status as JSON, or
`c.text("missing id", 400)`. -/
inductive StatusResult where
  | statusOk (status : String)
  | clientError (code : Nat) (msg : String)
deriving DecidableEq, Repr

/-- The `GET /summarize/status` handler (index.ts lines 97 to 103).  The
query parameter is `none` when absent; `if (!id)` is JavaScript
truthiness, so an empty string is rejected the same way. -/
def summarizeStatus (env : WfEnv) (idq : Option String) :
    List WfEffect × StatusResult :=
  match idq with
  | none => ([], .clientError 400 "missing id")
  | some id =>
    if id = "" then ([], .clientError 400 "missing id")
    else ([.wfGetInstance id, .wfStatus id], .statusOk (env.statusOf id))

/-- Modelled from the spec: the Memory Actor's per-user record (the
`MemoryDO` Durable Object in src/memory is not part of the available
source).  Per spec section 4.1 it owns a profile and an ordered,
append-only history of turn strings. -/
structure MemState where
  prof : Option JSVal
  hist : List String
deriving DecidableEq, Repr

/-- Modelled from the spec: one `append(userId, item)` operation, which
the actor executes atomically, appending `item` to the end of `history`. -/
def appendOp (st : MemState) (item : String) : MemState :=
  { st with hist := st.hist ++ [item] }

/-- Modelled from the spec: the actor's serialized execution of a
sequence of append operations (all operations on one `userId` run in a
single execution context, one at a time). -/
def runAppends (st : MemState) (items : List String) : MemState :=
  items.foldl appendOp st

/-- Modelled from the spec: an interleaving of concurrent callers.  Each
caller holds a queue of items to append, in its own submission order; a
schedule names, step by step, which caller's next whole operation the
actor serializes next.  Returns the serialized operations tagged with
their caller, and each caller's remaining queue.  A step naming an
exhausted caller (or an out-of-range index) is skipped. -/
def runQueues : List (List String) → List Nat → List (Nat × String) × List (List String)
  | qs, [] => ([], qs)
  | qs, i :: rest =>
    match qs[i]? with
    | some (x :: xs) =>
      let r := runQueues (qs.set i xs) rest
      ((i, x) :: r.1, r.2)
    | some [] => runQueues qs rest
    | none => runQueues qs rest

/-- The items of caller `i` in a tagged serialized trace, in trace
order. -/
def projOf (i : Nat) (out : List (Nat × String)) : List String :=
  out.filterMap fun p => if p.1 = i then some p.2 else none

/-- Whenever the memory `get` succeeds with snapshot `mem`, the handler
makes exactly one inference call and its prompt is `buildPrompt mem
userMsg`, whatever the inference and append calls do. -/
theorem llmCallsIn_chatHandler (env : ChatEnv) (userId userMsg : String)
    (mem : MemSnapshot) (hget : env.getResult = .ok mem) :
    llmCallsIn (chatHandler env userId userMsg).1 = [buildPrompt mem userMsg] := by
  simp only [chatHandler, hget]
  cases env.llm (buildPrompt mem userMsg) with
  | error e => simp [llmCallsIn]
  | ok answer =>
    cases env.appendResult with
    | error e => simp [llmCallsIn]
    | ok u => simp [llmCallsIn]

/-- Claim C1: the /chat handler sends the inference call exactly the
prompt built as optional profile line (rendered only if the snapshot's
profile is present), then the stored history joined one turn per line in
stored order, then the new user message and the assistant cue; the
prompt always ends with "User: (userMsg)\nAssistant:", and with an
empty history and no profile it is exactly
"Conversation so far:\n\nUser: (userMsg)\nAssistant:" (no profile line,
no history lines). -/
theorem C1_prompt_shape (env : ChatEnv) (userId userMsg : String)
    (mem : MemSnapshot) (hget : env.getResult = .ok mem) :
    llmCallsIn (chatHandler env userId userMsg).1 = [buildPrompt mem userMsg]
    ∧ buildPrompt mem userMsg =
        profileText mem ++ "Conversation so far:\n" ++
          String.intercalate "\n" (mem.hist.getD []) ++
          "\nUser: " ++ userMsg ++ "\nAssistant:"
    ∧ (mem.prof = none → profileText mem = "")
    ∧ (profileText mem ≠ "" → mem.prof ≠ none)
    ∧ (∃ pre, buildPrompt mem userMsg = pre ++ ("User: " ++ (userMsg ++ "\nAssistant:")))
    ∧ (mem.prof = none → mem.hist.getD [] = [] →
        buildPrompt mem userMsg =
          "Conversation so far:\n\nUser: " ++ (userMsg ++ "\nAssistant:")) := by
  refine ⟨llmCallsIn_chatHandler env userId userMsg mem hget, rfl, ?_, ?_, ?_, ?_⟩
  · intro h
    simp [profileText, h]
  · intro hne hnone
    exact hne (by simp [profileText, hnone])
  · refine ⟨profileText mem ++ "Conversation so far:\n" ++ historyText mem ++ "\n", ?_⟩
    have hsplit : ("\nUser: " : String) = "\n" ++ "User: " := by decide
    simp only [buildPrompt, hsplit, String.append_assoc]
  · intro hp hh
    have h1 : profileText mem = "" := by simp [profileText, hp]
    have h2 : historyText mem = "" := by
      simp only [historyText, hh]
      decide
    have hcat : ("Conversation so far:\n" : String) ++ ("\nUser: " ++ (userMsg ++ "\nAssistant:"))
        = "Conversation so far:\n\nUser: " ++ (userMsg ++ "\nAssistant:") := by
      rw [← String.append_assoc]
      have hlit : ("Conversation so far:\n" : String) ++ "\nUser: "
          = "Conversation so far:\n\nUser: " := by decide
      rw [hlit]
    simp only [buildPrompt, h1, h2, String.append_assoc, String.empty_append, hcat]

/-- Witness for C1: with an empty snapshot and the message "hello", the
handler sends the inference call exactly the scenario prompt, whose
trailing content is "User: hello\nAssistant:" and which has no profile
line and no history lines. -/
theorem C1_prompt_shape_witness :
    llmCallsIn (chatHandler ⟨.ok ⟨none, some []⟩, fun _ => .ok "hi", .ok ()⟩
        "u1" "hello").1
      = ["Conversation so far:\n\nUser: hello\nAssistant:"] := by
  have h := C1_prompt_shape ⟨.ok ⟨none, some []⟩, fun _ => .ok "hi", .ok ()⟩
    "u1" "hello" ⟨none, some []⟩ rfl
  rw [h.1, h.2.2.2.2.2 rfl rfl]
  decide

/-- Claim C2: when `get`, inference and `append` all succeed, the handler
issues exactly one memory append, whose item is exactly
"User: (userMsg)\nAssistant: (answer)", returns `{ answer }`, and
performs no side effects beyond the get, the inference call and that
single append. -/
theorem C2_single_append (env : ChatEnv) (userId userMsg answer : String)
    (mem : MemSnapshot) (hget : env.getResult = .ok mem)
    (hllm : env.llm (buildPrompt mem userMsg) = .ok answer)
    (happ : env.appendResult = .ok ()) :
    chatHandler env userId userMsg =
      ([.memGet userId, .llmCall (buildPrompt mem userMsg),
        .memAppend userId ("User: " ++ userMsg ++ "\nAssistant: " ++ answer)],
       .ok answer)
    ∧ appendsIn (chatHandler env userId userMsg).1 =
        [(userId, "User: " ++ userMsg ++ "\nAssistant: " ++ answer)] := by
  have hmain : chatHandler env userId userMsg =
      ([.memGet userId, .llmCall (buildPrompt mem userMsg),
        .memAppend userId ("User: " ++ userMsg ++ "\nAssistant: " ++ answer)],
       .ok answer) := by
    simp [chatHandler, hget, hllm, happ, turnItem]
  exact ⟨hmain, by rw [hmain]; simp [appendsIn]⟩

/-- Witness for C2: a concrete run in which the single append item is
"User: hello\nAssistant: hi" and the result is `{ answer := "hi" }`. -/
theorem C2_single_append_witness :
    chatHandler ⟨.ok ⟨none, some []⟩, fun _ => .ok "hi", .ok ()⟩ "u1" "hello" =
      ([.memGet "u1", .llmCall (buildPrompt ⟨none, some []⟩ "hello"),
        .memAppend "u1" ("User: " ++ "hello" ++ "\nAssistant: " ++ "hi")],
       .ok "hi")
    ∧ appendsIn (chatHandler ⟨.ok ⟨none, some []⟩, fun _ => .ok "hi", .ok ()⟩
        "u1" "hello").1 =
        [("u1", "User: " ++ "hello" ++ "\nAssistant: " ++ "hi")] :=
  C2_single_append ⟨.ok ⟨none, some []⟩, fun _ => .ok "hi", .ok ()⟩
    "u1" "hello" "hi" ⟨none, some []⟩ rfl rfl rfl

/-- Claim C4: when the inference call fails, the /chat request aborts
with a 500 server error and no memory append is ever issued. -/
theorem C4_inference_failure (env : ChatEnv) (userId userMsg e : String)
    (mem : MemSnapshot) (hget : env.getResult = .ok mem)
    (hllm : env.llm (buildPrompt mem userMsg) = .error e) :
    (chatHandler env userId userMsg).2 = .serverError 500
    ∧ appendsIn (chatHandler env userId userMsg).1 = [] := by
  constructor
  · simp [chatHandler, hget, hllm]
  · simp [chatHandler, hget, hllm, appendsIn]

/-- Witness for C4: a concrete run with a failing inference call: the
result is a 500 and the effect trace contains no append. -/
theorem C4_inference_failure_witness :
    (chatHandler ⟨.ok ⟨none, some []⟩, fun _ => .error "model down", .ok ()⟩
        "u1" "hello").2 = .serverError 500
    ∧ appendsIn (chatHandler ⟨.ok ⟨none, some []⟩, fun _ => .error "model down", .ok ()⟩
        "u1" "hello").1 = [] :=
  C4_inference_failure ⟨.ok ⟨none, some []⟩, fun _ => .error "model down", .ok ()⟩
    "u1" "hello" "model down" ⟨none, some []⟩ rfl rfl

/-- Counterexample to claim C5: with a failing append, the handler does
NOT return `{ answer }` — the un-caught rejection aborts the request
with a 500 and the answer "hi" is lost; no warning path exists. -/
theorem C5_counterexample :
    (chatHandler ⟨.ok ⟨none, some []⟩, fun _ => .ok "hi", .error "storage down"⟩
        "u1" "hello").2 = .serverError 500
    ∧ (chatHandler ⟨.ok ⟨none, some []⟩, fun _ => .ok "hi", .error "storage down"⟩
        "u1" "hello").2 ≠ .ok "hi" := by
  exact ⟨rfl, by decide⟩

/-- Amended claim C5: if inference succeeds but the append call fails,
the handler has already issued the append, but the failure is not
caught: the request aborts with a 500 server error and the answer is not
returned to the caller (the source has no warning-class reporting). -/
theorem C5_append_failure_amended (env : ChatEnv)
    (userId userMsg answer e : String) (mem : MemSnapshot)
    (hget : env.getResult = .ok mem)
    (hllm : env.llm (buildPrompt mem userMsg) = .ok answer)
    (happ : env.appendResult = .error e) :
    chatHandler env userId userMsg =
      ([.memGet userId, .llmCall (buildPrompt mem userMsg),
        .memAppend userId ("User: " ++ userMsg ++ "\nAssistant: " ++ answer)],
       .serverError 500) := by
  simp [chatHandler, hget, hllm, happ, turnItem]

/-- Witness for the amended C5: a concrete run with a failing append
ends in a 500 after the append was issued. -/
theorem C5_append_failure_amended_witness :
    chatHandler ⟨.ok ⟨none, some []⟩, fun _ => .ok "hi", .error "storage down"⟩
        "u1" "hello" =
      ([.memGet "u1", .llmCall (buildPrompt ⟨none, some []⟩ "hello"),
        .memAppend "u1" ("User: " ++ "hello" ++ "\nAssistant: " ++ "hi")],
       .serverError 500) :=
  C5_append_failure_amended
    ⟨.ok ⟨none, some []⟩, fun _ => .ok "hi", .error "storage down"⟩
    "u1" "hello" "hi" "storage down" ⟨none, some []⟩ rfl rfl rfl

/-- Counterexample to claim C6: when the memory `get` call fails, the
request does NOT proceed with an empty snapshot — no inference call is
made at all and the request aborts with a 500. -/
theorem C6_counterexample :
    (chatHandler ⟨.error "storage down", fun _ => .ok "hi", .ok ()⟩
        "u1" "hello").2 = .serverError 500
    ∧ llmCallsIn (chatHandler ⟨.error "storage down", fun _ => .ok "hi", .ok ()⟩
        "u1" "hello").1 = [] := by
  exact ⟨rfl, rfl⟩

/-- Amended claim C6: if the memory `get` call fails, the /chat handler
does not catch it: the request aborts with a 500 server error before any
inference or append is attempted.  (Graceful degradation exists only for
a successful get response whose `hist` field is absent.) -/
theorem C6_get_failure_amended (env : ChatEnv) (userId userMsg e : String)
    (hget : env.getResult = .error e) :
    chatHandler env userId userMsg = ([.memGet userId], .serverError 500) := by
  simp [chatHandler, hget]

/-- Witness for the amended C6: a concrete run with a failing get aborts
with a 500 after only the get effect. -/
theorem C6_get_failure_amended_witness :
    chatHandler ⟨.error "storage down", fun _ => .ok "hi", .ok ()⟩ "u1" "hello"
      = ([.memGet "u1"], .serverError 500) :=
  C6_get_failure_amended ⟨.error "storage down", fun _ => .ok "hi", .ok ()⟩
    "u1" "hello" "storage down" rfl

/-- Claim C7: a /summarize/status request with no `id` query parameter
returns a 400 client error and issues no workflow-engine effect at
all. -/
theorem C7_missing_id (env : WfEnv) :
    summarizeStatus env none = ([], .clientError 400 "missing id") := rfl

/-- Counterexample to claim C8: `start` with the empty url is not
rejected — the handler issues the workflow `create` with the empty url
and returns `{ id, status }` normally. -/
theorem C8_counterexample :
    summarizeStart ⟨"wf-1", fun _ => "Queued"⟩ "" =
      ([.wfCreate "", .wfStatus "wf-1"], .startOk "wf-1" "Queued") := rfl

/-- Amended claim C8: the /summarize handler performs no validation on
`url` whatsoever — for every url, the empty string included, it issues
the workflow `create` with that url, queries the new instance's status,
and returns `{ id, status }`; all validation is deferred to the
workflow. -/
theorem C8_no_url_validation (env : WfEnv) (url : String) :
    summarizeStart env url =
      ([.wfCreate url, .wfStatus env.createdId],
       .startOk env.createdId (env.statusOf env.createdId)) := rfl

/-- Claim C9: the profile line is gated on JavaScript truthiness of the
snapshot's `prof` field — a present but falsy `prof` (null, false, 0 or
the empty string) yields no profile line, and the whole prompt is the
same as if `prof` were absent. -/
theorem C9_truthiness_gate (mem : MemSnapshot) (p : JSVal) (userMsg : String)
    (hp : mem.prof = some p) (hfalsy : truthy p = false) :
    profileText mem = ""
    ∧ buildPrompt mem userMsg = buildPrompt { mem with prof := none } userMsg := by
  have h1 : profileText mem = "" := by simp [profileText, hp, hfalsy]
  have h2 : profileText { mem with prof := none } = "" := by simp [profileText]
  refine ⟨h1, ?_⟩
  simp only [buildPrompt, historyText, h1, h2]

/-- Witness for C9: a snapshot whose `prof` is present but is the empty
string renders no profile line, and prompts exactly as an absent
profile. -/
theorem C9_truthiness_gate_witness :
    profileText ⟨some (.jstr ""), some ["old turn"]⟩ = ""
    ∧ buildPrompt ⟨some (.jstr ""), some ["old turn"]⟩ "hi"
      = buildPrompt { prof := none, hist := some ["old turn"] } "hi" :=
  C9_truthiness_gate ⟨some (.jstr ""), some ["old turn"]⟩ (.jstr "") "hi" rfl rfl

/-- Claim C10: a get response with no `hist` field does not break the
handler — `mem.hist ?? []` substitutes the empty list, the joined
history is empty, the prompt equals the one built from an explicit empty
history, and the handler still proceeds to the inference call with that
prompt. -/
theorem C10_absent_hist_total (env : ChatEnv) (userId userMsg : String)
    (mem : MemSnapshot) (hget : env.getResult = .ok mem)
    (hh : mem.hist = none) :
    historyText mem = ""
    ∧ buildPrompt mem userMsg = buildPrompt { mem with hist := some [] } userMsg
    ∧ llmCallsIn (chatHandler env userId userMsg).1
        = [buildPrompt { mem with hist := some [] } userMsg] := by
  have h1 : historyText mem = "" := by
    simp only [historyText, hh]
    decide
  have h2 : buildPrompt mem userMsg = buildPrompt { mem with hist := some [] } userMsg := by
    simp [buildPrompt, historyText, profileText, hh]
  refine ⟨h1, h2, ?_⟩
  rw [← h2]
  exact llmCallsIn_chatHandler env userId userMsg mem hget

/-- Witness for C10: a concrete snapshot with `hist` absent produces the
same prompt as the empty history, and the handler still calls
inference. -/
theorem C10_absent_hist_total_witness :
    historyText ⟨none, none⟩ = ""
    ∧ buildPrompt ⟨none, none⟩ "hello"
      = buildPrompt { prof := none, hist := some [] } "hello"
    ∧ llmCallsIn (chatHandler ⟨.ok ⟨none, none⟩, fun _ => .ok "hi", .ok ()⟩
        "u1" "hello").1
      = [buildPrompt { prof := none, hist := some [] } "hello"] :=
  C10_absent_hist_total ⟨.ok ⟨none, none⟩, fun _ => .ok "hi", .ok ()⟩
    "u1" "hello" ⟨none, none⟩ rfl rfl

/-- Serialized appends add exactly the executed items to the end of the
history, in execution order: nothing is lost, nothing is duplicated, and
nothing else is touched at the actor level. -/
theorem runAppends_hist (items : List String) (st : MemState) :
    (runAppends st items).hist = st.hist ++ items := by
  induction items generalizing st with
  | nil => simp [runAppends]
  | cons x xs ih =>
    show (runAppends (appendOp st x) xs).hist = st.hist ++ (x :: xs)
    rw [ih]
    simp [appendOp]

/-- Projection of a trace headed by one of caller i's own operations. -/
theorem projOf_cons_self (i : Nat) (x : String) (out : List (Nat × String)) :
    projOf i ((i, x) :: out) = x :: projOf i out := by
  simp [projOf]

/-- Projection of a trace headed by another caller's operation. -/
theorem projOf_cons_ne (i j : Nat) (hij : j ≠ i) (x : String)
    (out : List (Nat × String)) :
    projOf i ((j, x) :: out) = projOf i out := by
  simp [projOf, hij]

/-- Scheduler invariant: for every caller i, the items of caller i in
the serialized trace followed by caller i's remaining queue are exactly
caller i's submitted queue — so the serialized order is consistent with
each caller's own submission order, with no loss and no duplication. -/
theorem runQueues_proj (sched : List Nat) (qs : List (List String)) (i : Nat) :
    projOf i (runQueues qs sched).1 ++ (runQueues qs sched).2.getD i []
      = qs.getD i [] := by
  induction sched generalizing qs with
  | nil => simp [runQueues, projOf]
  | cons j rest ih =>
    cases hq : qs[j]? with
    | none => simpa only [runQueues, hq] using ih qs
    | some q =>
      cases q with
      | nil => simpa only [runQueues, hq] using ih qs
      | cons x xs =>
        have hlen : j < qs.length := by
          rcases Nat.lt_or_ge j qs.length with h | h
          · exact h
          · rw [List.getElem?_eq_none h] at hq
            cases hq
        by_cases hij : j = i
        · subst hij
          have hset : (qs.set j xs).getD j [] = xs := by
            rw [List.getD_eq_getElem?_getD, List.getElem?_set_self hlen]
            rfl
          have hqd : qs.getD j [] = x :: xs := by
            rw [List.getD_eq_getElem?_getD, hq]
            rfl
          have hih := ih (qs.set j xs)
          rw [hset] at hih
          simp only [runQueues, hq]
          rw [projOf_cons_self, List.cons_append, hih, hqd]
        · have hset : (qs.set j xs).getD i [] = qs.getD i [] := by
            rw [List.getD_eq_getElem?_getD, List.getD_eq_getElem?_getD,
              List.getElem?_set_ne hij]
          have hih := ih (qs.set j xs)
          rw [hset] at hih
          simp only [runQueues, hq]
          rw [projOf_cons_ne i j hij, hih]

/-- Taking one item off queue i lowers the total number of queued items
by exactly one. -/
theorem sumLen_set (qs : List (List String)) (i : Nat) (x : String)
    (xs : List String) (hq : qs[i]? = some (x :: xs)) :
    ((qs.set i xs).map List.length).sum + 1 = (qs.map List.length).sum := by
  induction qs generalizing i with
  | nil => simp at hq
  | cons q rest ih =>
    cases i with
    | zero =>
      simp only [List.getElem?_cons_zero] at hq
      injection hq with hq
      subst hq
      simp [List.set]
      omega
    | succ n =>
      simp only [List.getElem?_cons_succ] at hq
      have h := ih n hq
      simp only [List.set, List.map_cons, List.sum_cons]
      omega

/-- Scheduler invariant: the length of the serialized trace plus the
items still queued is the total number of items submitted. -/
theorem runQueues_length (sched : List Nat) (qs : List (List String)) :
    (runQueues qs sched).1.length + ((runQueues qs sched).2.map List.length).sum
      = (qs.map List.length).sum := by
  induction sched generalizing qs with
  | nil => simp [runQueues]
  | cons j rest ih =>
    cases hq : qs[j]? with
    | none => simpa only [runQueues, hq] using ih qs
    | some q =>
      cases q with
      | nil => simpa only [runQueues, hq] using ih qs
      | cons x xs =>
        have h1 := ih (qs.set j xs)
        have h2 := sumLen_set qs j x xs hq
        simp only [runQueues, hq, List.length_cons]
        omega

/-- A list of queues that are all empty yields the empty list at every
index. -/
theorem allEmpty_getD (l : List (List String))
    (h : (l.all fun q => q.isEmpty) = true) (i : Nat) :
    l.getD i [] = [] := by
  induction l generalizing i with
  | nil => simp
  | cons q rest ih =>
    rw [List.all_cons, Bool.and_eq_true] at h
    cases i with
    | zero =>
      rw [List.getD_cons_zero]
      exact List.isEmpty_iff.mp h.1
    | succ n =>
      rw [List.getD_cons_succ]
      exact ih h.2 n

/-- Claim C3 (actor modelled from the spec): for concurrent callers each
submitting a queue of appends in its own order, any complete
serialization of whole operations yields a history that (a) is the
initial history extended by exactly the serialized items, (b) has
exactly as many new entries as were submitted (no loss, no duplication),
(c) restricted to each caller is exactly that caller's queue in its own
submission order, and (d) at every intermediate point a `get` observes a
fully-written record that is a prefix of the final history. -/
theorem C3_append_atomicity (qs : List (List String)) (sched : List Nat)
    (init : MemState)
    (hdrain : ((runQueues qs sched).2.all fun q => q.isEmpty) = true) :
    (runAppends init ((runQueues qs sched).1.map Prod.snd)).hist
        = init.hist ++ (runQueues qs sched).1.map Prod.snd
    ∧ ((runQueues qs sched).1.map Prod.snd).length = (qs.map List.length).sum
    ∧ (∀ i, projOf i (runQueues qs sched).1 = qs.getD i [])
    ∧ (∀ k, ∃ t,
        (runAppends init (((runQueues qs sched).1.map Prod.snd).take k)).hist ++ t
          = (runAppends init ((runQueues qs sched).1.map Prod.snd)).hist) := by
  refine ⟨runAppends_hist _ _, ?_, ?_, ?_⟩
  · have h := runQueues_length sched qs
    have h0 : ((runQueues qs sched).2.map List.length).sum = 0 := by
      refine List.sum_eq_zero ?_
      intro n hn
      rcases List.mem_map.mp hn with ⟨q, hqmem, rfl⟩
      have hempty := List.all_eq_true.mp hdrain q hqmem
      rw [List.isEmpty_iff.mp hempty]
      rfl
    rw [List.length_map]
    omega
  · intro i
    have h := runQueues_proj sched qs i
    rw [allEmpty_getD _ hdrain i, List.append_nil] at h
    exact h
  · intro k
    refine ⟨((runQueues qs sched).1.map Prod.snd).drop k, ?_⟩
    rw [runAppends_hist, runAppends_hist, List.append_assoc,
      List.take_append_drop]

/-- Witness for C3: caller 0 submits ["a", "b"], caller 1 submits ["c"];
the complete schedule 0, 1, 0 serializes them as a, c, b — all three
items land, the count matches, and each caller's own order is kept. -/
theorem C3_append_atomicity_witness :
    (runAppends ⟨none, []⟩
        ((runQueues [["a", "b"], ["c"]] [0, 1, 0]).1.map Prod.snd)).hist
      = ["a", "c", "b"]
    ∧ ((runQueues [["a", "b"], ["c"]] [0, 1, 0]).1.map Prod.snd).length
      = ([["a", "b"], ["c"]].map List.length).sum
    ∧ projOf 0 (runQueues [["a", "b"], ["c"]] [0, 1, 0]).1 = ["a", "b"]
    ∧ projOf 1 (runQueues [["a", "b"], ["c"]] [0, 1, 0]).1 = ["c"] := by
  have h := C3_append_atomicity [["a", "b"], ["c"]] [0, 1, 0] ⟨none, []⟩ (by decide)
  refine ⟨?_, h.2.1, ?_, ?_⟩
  · rw [h.1]
    decide
  · rw [h.2.2.1 0]
    decide
  · rw [h.2.2.1 1]
    decide

end CfAssistant
